import Mathlib

/-!
Tracing middleware of `tracing/endpoint.go`

A shallow embedding of the two endpoint decorators `TraceServer` and
`TraceClient`.  The tracer, its spans and the wrapped endpoint are external
collaborators, so they are parameters of the model:

* a span is a handle, identified by a number;
* every call made on the tracer or on a span is recorded as a `SpanOp`;
* the tracer is a function of the history of such calls, which lets it be
  stateful (allocate fresh spans) or not (hand out one shared span);
* an endpoint receives the history, a context and a request, and yields the
  span operations performed while it ran together with how it ended: a normal
  return of a response and an error, or a panic;
* an error is known by what the call `err.Error()` does: it returns a text, or
  it panics (a nil pointer held in a non-nil `error` value does).

The run of a decorated endpoint is a list of events: the span operations the
decorator performs itself, and the one invocation of the wrapped endpoint with
everything that happened inside it.
-/

namespace Tracing

/-- Span handle (`opentracing.Span`): two handles are the same span exactly when equal. -/
abbrev Span := Nat

/-- Request and response payloads (`interface{}`), identified by a code. -/
abbrev Payload := Nat

/-- What a call of the method `Error()` does: it returns the text of the
error, or it panics with some value. -/
inductive ErrorCall where
  | returns (text : String)
  | panics (value : Nat)
  deriving DecidableEq, Repr

/-- Go `error` value; `Error` is what the call `err.Error()` does. -/
structure GoError where
  Error : ErrorCall
  deriving DecidableEq, Repr

/-- Values the decorators pass to `SetTag`. -/
inductive TagValue where
  | bool (b : Bool)
  | str (s : String)
  | spanKind (k : String)
  deriving DecidableEq, Repr

/-- One call on the tracer or on a span. -/
inductive SpanOp where
  | StartSpan (operationName : String) (childOf : Option Span) (result : Span)
  | SetOperationName (span : Span) (operationName : String)
  | SetTag (span : Span) (key : String) (value : TagValue)
  | Finish (span : Span)
  deriving DecidableEq, Repr

/-- All calls made on the tracer and its spans so far, oldest first. -/
abbrev History := List SpanOp

/-- Tracer capability (`opentracing.Tracer`): which span `StartSpan` hands out,
given everything that happened before, the name and the `ChildOf` reference. -/
structure Tracer where
  StartSpan : History → String → Option Span → Span

/-- One link of a `context.Context` chain. -/
inductive CtxEntry where
  | activeSpan (s : Span)
  | other (key : Nat) (value : Nat)
  deriving DecidableEq, Repr

/-- Immutable context: a chain of values, the most recently added first. -/
abbrev Context := List CtxEntry

/-- Go `opentracing.SpanFromContext`: the span most recently attached, if any. -/
def SpanFromContext : Context → Option Span
  | [] => none
  | CtxEntry.activeSpan s :: _ => some s
  | CtxEntry.other _ _ :: rest => SpanFromContext rest

/-- Go `opentracing.ContextWithSpan`: a derived context carrying `s`. -/
def ContextWithSpan (ctx : Context) (s : Span) : Context :=
  CtxEntry.activeSpan s :: ctx

/-- How an endpoint invocation ends. -/
inductive Result where
  | ret (response : Payload) (err : Option GoError)
  | panic (value : Nat)
  deriving DecidableEq, Repr

/-- What an endpoint invocation did: the span operations performed while it
ran and how it ended. -/
structure Outcome where
  ops : List SpanOp
  result : Result
  deriving DecidableEq, Repr

/-- Go `endpoint.Endpoint`, with the history of span operations made explicit. -/
abbrev Endpoint := History → Context → Payload → Outcome

/-- One step of a decorated endpoint: a span operation of its own, or the
invocation of the wrapped endpoint. -/
inductive Event where
  | op (o : SpanOp)
  | call (ctx : Context) (request : Payload) (out : Outcome)
  deriving DecidableEq, Repr

/-- Run of a decorated endpoint: its events in order and what it hands back. -/
structure Run where
  events : List Event
  result : Result
  deriving DecidableEq, Repr

/-- Value of the named result `err` when the deferred function runs: what
`next` returned, or still nil when `next` panicked. -/
def Result.err : Result → Option GoError
  | Result.ret _ e => e
  | Result.panic _ => none

/-- The deferred function of both decorators (lines 26-32 and 54-60): the span
operations it performs and, when it does not run to its end, the panic it
raises. With a nil `err` it only finishes the span. With a non-nil `err` it
sets the `error` tag and then evaluates `err.Error()`: if that returns, the
`message` tag and `Finish` follow; if that panics, nothing follows. -/
def deferred (span : Span) (err : Option GoError) : List SpanOp × Option Nat :=
  match err with
  | none => ([SpanOp.Finish span], none)
  | some e =>
    match e.Error with
    | ErrorCall.returns text =>
      ([SpanOp.SetTag span "error" (TagValue.bool true),
        SpanOp.SetTag span "message" (TagValue.str text),
        SpanOp.Finish span], none)
    | ErrorCall.panics value =>
      ([SpanOp.SetTag span "error" (TagValue.bool true)], some value)

/-- How the decorated call ends: with the panic of the deferred function when
it raised one, else the way `next` ended (its return values, or its panic). -/
def finalResult (out : Result) (raised : Option Nat) : Result :=
  match raised with
  | some value => Result.panic value
  | none => out

/-- Lines 19-25: the span `TraceServer` works on and the call that obtains it:
a new root span when the context has none, else the span of the context, renamed. -/
def serverSpan (tracer : Tracer) (operationName : String) (h : History) (ctx : Context) :
    Span × SpanOp :=
  match SpanFromContext ctx with
  | none =>
    let s := tracer.StartSpan h operationName none
    (s, SpanOp.StartSpan operationName none s)
  | some s => (s, SpanOp.SetOperationName s operationName)

/-- Lines 45-53: the span `TraceClient` works on and the call that obtains it:
a child of the span of the context when there is one, else a new root span. -/
def clientSpan (tracer : Tracer) (operationName : String) (h : History) (ctx : Context) :
    Span × SpanOp :=
  match SpanFromContext ctx with
  | some parentSpan =>
    let s := tracer.StartSpan h operationName (some parentSpan)
    (s, SpanOp.StartSpan operationName (some parentSpan) s)
  | none =>
    let s := tracer.StartSpan h operationName none
    (s, SpanOp.StartSpan operationName none s)

/-- `ext.SpanKindRPCServer.Set(span)`: the tag `span.kind = server`. -/
def SpanKindRPCServer (span : Span) : SpanOp :=
  SpanOp.SetTag span "span.kind" (TagValue.spanKind "server")

/-- `ext.SpanKindRPCClient.Set(span)`: the tag `span.kind = client`. -/
def SpanKindRPCClient (span : Span) : SpanOp :=
  SpanOp.SetTag span "span.kind" (TagValue.spanKind "client")

/-- Go `TraceServer(tracer, operationName)(next)(ctx, request)`. -/
def TraceServer (tracer : Tracer) (operationName : String) (next : Endpoint)
    (h : History) (ctx : Context) (request : Payload) : Run :=
  let acquired := serverSpan tracer operationName h ctx
  let span := acquired.1
  let kind := SpanKindRPCServer span
  let ctx' := ContextWithSpan ctx span
  let out := next (h ++ [acquired.2, kind]) ctx' request
  let cleanup := deferred span out.result.err
  Run.mk
    ([Event.op acquired.2, Event.op kind, Event.call ctx' request out]
      ++ cleanup.1.map Event.op)
    (finalResult out.result cleanup.2)

/-- Go `TraceClient(tracer, operationName)(next)(ctx, request)`. -/
def TraceClient (tracer : Tracer) (operationName : String) (next : Endpoint)
    (h : History) (ctx : Context) (request : Payload) : Run :=
  let acquired := clientSpan tracer operationName h ctx
  let span := acquired.1
  let kind := SpanKindRPCClient span
  let ctx' := ContextWithSpan ctx span
  let out := next (h ++ [acquired.2, kind]) ctx' request
  let cleanup := deferred span out.result.err
  Run.mk
    ([Event.op acquired.2, Event.op kind, Event.call ctx' request out]
      ++ cleanup.1.map Event.op)
    (finalResult out.result cleanup.2)

/-- The invocation of `next` that `TraceServer` makes (line 35). -/
def serverCall (tracer : Tracer) (operationName : String) (next : Endpoint)
    (h : History) (ctx : Context) (request : Payload) : Outcome :=
  next (h ++ [(serverSpan tracer operationName h ctx).2,
              SpanKindRPCServer (serverSpan tracer operationName h ctx).1])
    (ContextWithSpan ctx (serverSpan tracer operationName h ctx).1) request

/-- The invocation of `next` that `TraceClient` makes (line 63). -/
def clientCall (tracer : Tracer) (operationName : String) (next : Endpoint)
    (h : History) (ctx : Context) (request : Payload) : Outcome :=
  next (h ++ [(clientSpan tracer operationName h ctx).2,
              SpanKindRPCClient (clientSpan tracer operationName h ctx).1])
    (ContextWithSpan ctx (clientSpan tracer operationName h ctx).1) request

/-! ## Observations on a run -/

/-- Span operations the decorator performed itself, in order. -/
def Run.own (r : Run) : List SpanOp :=
  r.events.filterMap fun e =>
    match e with
    | Event.op o => some o
    | Event.call _ _ _ => none

/-- Invocations of the wrapped endpoint, in order. -/
def Run.calls (r : Run) : List (Context × Payload × Outcome) :=
  r.events.filterMap fun e =>
    match e with
    | Event.op _ => none
    | Event.call c q out => some (c, q, out)

/-- Every span operation of a run, the wrapped endpoint's included, in order. -/
def Run.allOps (r : Run) : List SpanOp :=
  r.events.flatMap fun e =>
    match e with
    | Event.op o => [o]
    | Event.call _ _ out => out.ops

/-- A decorated endpoint seen from outside, as an endpoint again. -/
def Run.toOutcome (r : Run) : Outcome :=
  Outcome.mk r.allOps r.result

/-- Is the operation a `Finish`? -/
def SpanOp.isFinish : SpanOp → Bool
  | SpanOp.Finish _ => true
  | _ => false

/-- Is the operation a `StartSpan`? -/
def SpanOp.isStartSpan : SpanOp → Bool
  | SpanOp.StartSpan _ _ _ => true
  | _ => false

/-- Is the operation a `SetOperationName`? -/
def SpanOp.isSetOperationName : SpanOp → Bool
  | SpanOp.SetOperationName _ _ => true
  | _ => false

/-- Is the operation a `SetTag` with the given key? -/
def SpanOp.isSetTag (key : String) : SpanOp → Bool
  | SpanOp.SetTag _ k _ => k == key
  | _ => false

/-- The span an operation acts on: the one started, renamed, tagged or finished. -/
def SpanOp.subject : SpanOp → Span
  | SpanOp.StartSpan _ _ s => s
  | SpanOp.SetOperationName s _ => s
  | SpanOp.SetTag s _ _ => s
  | SpanOp.Finish s => s

/-! ## Stacks of decorators and the life of a span -/

/-- One decorator of a stack, with its operation name. -/
inductive Layer where
  | server (operationName : String)
  | client (operationName : String)
  deriving DecidableEq, Repr

/-- Is the layer a `TraceClient`? -/
def Layer.isClient : Layer → Bool
  | Layer.client _ => true
  | Layer.server _ => false

/-- Apply one decorator to an endpoint; the result is an endpoint again. -/
def decorate (tracer : Tracer) : Layer → Endpoint → Endpoint
  | Layer.server op, next => fun h ctx request =>
      (TraceServer tracer op next h ctx request).toOutcome
  | Layer.client op, next => fun h ctx request =>
      (TraceClient tracer op next h ctx request).toOutcome

/-- Apply a stack of decorators, the outermost first in the list, to `base`. -/
def stack (tracer : Tracer) (layers : List Layer) (base : Endpoint) : Endpoint :=
  layers.foldr (decorate tracer) base

/-- Does the operation set a tag or the operation name of span `s`? -/
def SpanOp.mutates (s : Span) : SpanOp → Bool
  | SpanOp.SetTag t _ _ => t == s
  | SpanOp.SetOperationName t _ => t == s
  | _ => false

/-- Is some `Finish` of span `s` followed, later in the list, by a `SetTag` or
a `SetOperationName` on `s`? -/
def changedAfterFinish (s : Span) : List SpanOp → Bool
  | [] => false
  | o :: rest =>
    (o == SpanOp.Finish s && rest.any (SpanOp.mutates s)) || changedAfterFinish s rest

/-- Span lifecycle: every span that some operation of the list acts on is
finished exactly once and is neither tagged nor renamed after its `Finish`. -/
def Lifecycle (ops : List SpanOp) : Prop :=
  ∀ s ∈ ops.map SpanOp.subject,
    ops.count (SpanOp.Finish s) = 1 ∧ changedAfterFinish s ops = false

instance (ops : List SpanOp) : Decidable (Lifecycle ops) := by
  unfold Lifecycle
  infer_instance

/-- Spans an operation refers to: the one it acts on and a `ChildOf` parent. -/
def SpanOp.spans : SpanOp → List Span
  | SpanOp.StartSpan _ parent s => s :: parent.toList
  | o => [o.subject]

/-- Every span the history refers to. -/
def mentioned (h : History) : List Span :=
  h.flatMap SpanOp.spans

/-- Tracer whose `StartSpan` always returns a span that is new: not referred to
in the history and not the parent given. -/
def Tracer.Fresh (tracer : Tracer) : Prop :=
  ∀ (h : History) (name : String) (parent : Option Span),
    tracer.StartSpan h name parent ∉ mentioned h
    ∧ parent ≠ some (tracer.StartSpan h name parent)

/-- Endpoint that performs no span operation itself. -/
def Quiet (base : Endpoint) : Prop :=
  ∀ (h : History) (ctx : Context) (request : Payload), (base h ctx request).ops = []

/-- Result whose error, if it is a returned non-nil error, has an `Error()`
that returns. -/
def Result.Describable (r : Result) : Prop :=
  ∀ (response : Payload) (e : GoError), r = Result.ret response (some e) →
    ∃ text, e.Error = ErrorCall.returns text

/-! ## Sample collaborators -/

/-- Tracer that allocates a span with a number larger than any seen so far. -/
def freshTracer : Tracer :=
  Tracer.mk fun h _ parent => 1 + (mentioned h ++ parent.toList).foldr max 0

/-- Tracer that hands out one shared span, as a no-op tracer does. -/
def noopTracer : Tracer :=
  Tracer.mk fun _ _ _ => 0

/-- Endpoint that succeeds with its request as the response. -/
def echo : Endpoint :=
  fun _ _ request => Outcome.mk [] (Result.ret request none)

/-- The error `boom`. -/
def boom : GoError :=
  GoError.mk (ErrorCall.returns "boom")

/-- Error whose `Error()` panics with value 9, as a nil pointer held in an
`error` value does. -/
def nilPointerError : GoError :=
  GoError.mk (ErrorCall.panics 9)

/-- Endpoint that fails with the error `boom`. -/
def failing : Endpoint :=
  fun _ _ _ => Outcome.mk [] (Result.ret 0 (some boom))

/-- Endpoint that fails with an error whose `Error()` panics. -/
def failingNilPointer : Endpoint :=
  fun _ _ _ => Outcome.mk [] (Result.ret 0 (some nilPointerError))

/-- Endpoint that ends one way when the span it is given is tagged as a server
span in the history, another way when it is tagged as a client span, and
panics when it is tagged as neither. -/
def byKind (underServer underClient : Result) : Endpoint :=
  fun h ctx _ =>
    match SpanFromContext ctx with
    | none => Outcome.mk [] (Result.panic 1)
    | some s =>
      if SpanOp.SetTag s "span.kind" (TagValue.spanKind "server") ∈ h then
        Outcome.mk [] underServer
      else if SpanOp.SetTag s "span.kind" (TagValue.spanKind "client") ∈ h then
        Outcome.mk [] underClient
      else Outcome.mk [] (Result.panic 1)

/-! ## Shape of a run -/

theorem TraceServer_events (tracer : Tracer) (op : String) (next : Endpoint)
    (h : History) (ctx : Context) (request : Payload) :
    (TraceServer tracer op next h ctx request).events =
      [Event.op (serverSpan tracer op h ctx).2,
       Event.op (SpanKindRPCServer (serverSpan tracer op h ctx).1),
       Event.call (ContextWithSpan ctx (serverSpan tracer op h ctx).1) request
         (serverCall tracer op next h ctx request)]
      ++ (deferred (serverSpan tracer op h ctx).1
            (serverCall tracer op next h ctx request).result.err).1.map Event.op := rfl

theorem TraceClient_events (tracer : Tracer) (op : String) (next : Endpoint)
    (h : History) (ctx : Context) (request : Payload) :
    (TraceClient tracer op next h ctx request).events =
      [Event.op (clientSpan tracer op h ctx).2,
       Event.op (SpanKindRPCClient (clientSpan tracer op h ctx).1),
       Event.call (ContextWithSpan ctx (clientSpan tracer op h ctx).1) request
         (clientCall tracer op next h ctx request)]
      ++ (deferred (clientSpan tracer op h ctx).1
            (clientCall tracer op next h ctx request).result.err).1.map Event.op := rfl

theorem TraceServer_result (tracer : Tracer) (op : String) (next : Endpoint)
    (h : History) (ctx : Context) (request : Payload) :
    (TraceServer tracer op next h ctx request).result =
      finalResult (serverCall tracer op next h ctx request).result
        (deferred (serverSpan tracer op h ctx).1
            (serverCall tracer op next h ctx request).result.err).2 := rfl

theorem TraceClient_result (tracer : Tracer) (op : String) (next : Endpoint)
    (h : History) (ctx : Context) (request : Payload) :
    (TraceClient tracer op next h ctx request).result =
      finalResult (clientCall tracer op next h ctx request).result
        (deferred (clientSpan tracer op h ctx).1
            (clientCall tracer op next h ctx request).result.err).2 := rfl

theorem own_map_op (l : List SpanOp) (r : Result) :
    (Run.mk (l.map Event.op) r).own = l := by
  induction l with
  | nil => rfl
  | cons o l ih =>
    simp only [Run.own, List.map_cons, List.filterMap_cons] at ih ⊢
    rw [ih]

theorem TraceServer_own (tracer : Tracer) (op : String) (next : Endpoint)
    (h : History) (ctx : Context) (request : Payload) :
    (TraceServer tracer op next h ctx request).own =
      [(serverSpan tracer op h ctx).2, SpanKindRPCServer (serverSpan tracer op h ctx).1]
      ++ (deferred (serverSpan tracer op h ctx).1
            (serverCall tracer op next h ctx request).result.err).1 := by
  have := own_map_op (deferred (serverSpan tracer op h ctx).1
            (serverCall tracer op next h ctx request).result.err).1 (Result.panic 0)
  simp only [Run.own] at this
  simp only [Run.own, TraceServer_events, List.filterMap_append, List.filterMap_cons,
    List.filterMap_nil, this, List.cons_append, List.nil_append]

theorem TraceClient_own (tracer : Tracer) (op : String) (next : Endpoint)
    (h : History) (ctx : Context) (request : Payload) :
    (TraceClient tracer op next h ctx request).own =
      [(clientSpan tracer op h ctx).2, SpanKindRPCClient (clientSpan tracer op h ctx).1]
      ++ (deferred (clientSpan tracer op h ctx).1
            (clientCall tracer op next h ctx request).result.err).1 := by
  have := own_map_op (deferred (clientSpan tracer op h ctx).1
            (clientCall tracer op next h ctx request).result.err).1 (Result.panic 0)
  simp only [Run.own] at this
  simp only [Run.own, TraceClient_events, List.filterMap_append, List.filterMap_cons,
    List.filterMap_nil, this, List.cons_append, List.nil_append]

theorem calls_map_op (l : List SpanOp) (r : Result) :
    (Run.mk (l.map Event.op) r).calls = [] := by
  induction l with
  | nil => rfl
  | cons o l ih =>
    simp only [Run.calls, List.map_cons, List.filterMap_cons] at ih ⊢
    rw [ih]

theorem TraceServer_calls (tracer : Tracer) (op : String) (next : Endpoint)
    (h : History) (ctx : Context) (request : Payload) :
    (TraceServer tracer op next h ctx request).calls =
      [(ContextWithSpan ctx (serverSpan tracer op h ctx).1, request,
        serverCall tracer op next h ctx request)] := by
  have := calls_map_op (deferred (serverSpan tracer op h ctx).1
            (serverCall tracer op next h ctx request).result.err).1 (Result.panic 0)
  simp only [Run.calls] at this
  simp only [Run.calls, TraceServer_events, List.filterMap_append, List.filterMap_cons,
    List.filterMap_nil, this, List.cons_append, List.nil_append, List.append_nil]

theorem TraceClient_calls (tracer : Tracer) (op : String) (next : Endpoint)
    (h : History) (ctx : Context) (request : Payload) :
    (TraceClient tracer op next h ctx request).calls =
      [(ContextWithSpan ctx (clientSpan tracer op h ctx).1, request,
        clientCall tracer op next h ctx request)] := by
  have := calls_map_op (deferred (clientSpan tracer op h ctx).1
            (clientCall tracer op next h ctx request).result.err).1 (Result.panic 0)
  simp only [Run.calls] at this
  simp only [Run.calls, TraceClient_events, List.filterMap_append, List.filterMap_cons,
    List.filterMap_nil, this, List.cons_append, List.nil_append, List.append_nil]

theorem serverSpan_of_some (tracer : Tracer) (op : String) (h : History) (ctx : Context)
    (S : Span) (hS : SpanFromContext ctx = some S) :
    serverSpan tracer op h ctx = (S, SpanOp.SetOperationName S op) := by
  simp only [serverSpan, hS]

theorem serverSpan_of_none (tracer : Tracer) (op : String) (h : History) (ctx : Context)
    (hN : SpanFromContext ctx = none) :
    serverSpan tracer op h ctx =
      (tracer.StartSpan h op none, SpanOp.StartSpan op none (tracer.StartSpan h op none)) := by
  simp only [serverSpan, hN]

theorem clientSpan_eq (tracer : Tracer) (op : String) (h : History) (ctx : Context) :
    clientSpan tracer op h ctx =
      (tracer.StartSpan h op (SpanFromContext ctx),
       SpanOp.StartSpan op (SpanFromContext ctx) (tracer.StartSpan h op (SpanFromContext ctx))) := by
  unfold clientSpan
  cases SpanFromContext ctx <;> rfl

theorem clientSpan_snd (tracer : Tracer) (op : String) (h : History) (ctx : Context) :
    (clientSpan tracer op h ctx).2 =
      SpanOp.StartSpan op (SpanFromContext ctx) (clientSpan tracer op h ctx).1 := by
  unfold clientSpan
  cases SpanFromContext ctx <;> rfl

theorem serverSpan_snd_cases (tracer : Tracer) (op : String) (h : History) (ctx : Context) :
    (serverSpan tracer op h ctx).2 = SpanOp.StartSpan op none (serverSpan tracer op h ctx).1
    ∨ (serverSpan tracer op h ctx).2 = SpanOp.SetOperationName (serverSpan tracer op h ctx).1 op := by
  unfold serverSpan
  cases SpanFromContext ctx
  · exact Or.inl rfl
  · exact Or.inr rfl

theorem serverSpan_snd_isFinish (tracer : Tracer) (op : String) (h : History) (ctx : Context) :
    (serverSpan tracer op h ctx).2.isFinish = false := by
  unfold serverSpan
  cases SpanFromContext ctx <;> rfl

theorem serverSpan_snd_isSetTag (tracer : Tracer) (op : String) (h : History) (ctx : Context)
    (key : String) : (serverSpan tracer op h ctx).2.isSetTag key = false := by
  unfold serverSpan
  cases SpanFromContext ctx <;> rfl

theorem serverSpan_snd_subject (tracer : Tracer) (op : String) (h : History) (ctx : Context) :
    (serverSpan tracer op h ctx).2.subject = (serverSpan tracer op h ctx).1 := by
  unfold serverSpan
  cases SpanFromContext ctx <;> rfl

/-! ## The deferred function, case by case -/

theorem deferred_nil (span : Span) :
    deferred span none = ([SpanOp.Finish span], none) := rfl

theorem deferred_returns (span : Span) (e : GoError) (text : String)
    (he : e.Error = ErrorCall.returns text) :
    deferred span (some e) =
      ([SpanOp.SetTag span "error" (TagValue.bool true),
        SpanOp.SetTag span "message" (TagValue.str text),
        SpanOp.Finish span], none) := by
  simp only [deferred, he]

theorem deferred_panics (span : Span) (e : GoError) (value : Nat)
    (he : e.Error = ErrorCall.panics value) :
    deferred span (some e) =
      ([SpanOp.SetTag span "error" (TagValue.bool true)], some value) := by
  simp only [deferred, he]

/-- The three ways the deferred function can go. -/
theorem deferred_cases (span : Span) (err : Option GoError) :
    deferred span err = ([SpanOp.Finish span], none)
    ∨ (∃ text, deferred span err =
        ([SpanOp.SetTag span "error" (TagValue.bool true),
          SpanOp.SetTag span "message" (TagValue.str text),
          SpanOp.Finish span], none))
    ∨ (∃ value, deferred span err =
        ([SpanOp.SetTag span "error" (TagValue.bool true)], some value)) := by
  cases err with
  | none => exact Or.inl rfl
  | some e =>
    cases he : e.Error with
    | returns text => exact Or.inr (Or.inl ⟨text, deferred_returns span e text he⟩)
    | panics value => exact Or.inr (Or.inr ⟨value, deferred_panics span e value he⟩)

/-- With a nil error, or an error whose `Error()` returns, the deferred
function runs to its end: some tags on the span, then `Finish`, and no panic. -/
theorem deferred_describable (span : Span) (err : Option GoError)
    (hE : ∀ e, err = some e → ∃ text, e.Error = ErrorCall.returns text) :
    deferred span err = ([SpanOp.Finish span], none)
    ∨ ∃ text, deferred span err =
        ([SpanOp.SetTag span "error" (TagValue.bool true),
          SpanOp.SetTag span "message" (TagValue.str text),
          SpanOp.Finish span], none) := by
  cases err with
  | none => exact Or.inl rfl
  | some e =>
    obtain ⟨text, he⟩ := hE e rfl
    exact Or.inr ⟨text, deferred_returns span e text he⟩

theorem deferred_no_start (span : Span) (err : Option GoError) :
    (deferred span err).1.filter SpanOp.isStartSpan = [] := by
  rcases deferred_cases span err with h | ⟨_, h⟩ | ⟨_, h⟩ <;> rw [h] <;> rfl

theorem deferred_no_rename (span : Span) (err : Option GoError) :
    (deferred span err).1.filter SpanOp.isSetOperationName = [] := by
  rcases deferred_cases span err with h | ⟨_, h⟩ | ⟨_, h⟩ <;> rw [h] <;> rfl

theorem deferred_subject (span : Span) (err : Option GoError) :
    ∀ o ∈ (deferred span err).1, o.subject = span := by
  rcases deferred_cases span err with h | ⟨_, h⟩ | ⟨_, h⟩ <;> rw [h] <;>
    simp [SpanOp.subject]

theorem err_of_ret (r : Result) (response : Payload) (err : Option GoError)
    (hr : r = Result.ret response err) : r.err = err := by
  rw [hr]; rfl

theorem err_of_panic (r : Result) (value : Nat) (hr : r = Result.panic value) :
    r.err = none := by
  rw [hr]; rfl

/-! ## Lists of operations around a nested invocation -/

theorem allOps_map_op (l : List SpanOp) (r : Result) :
    (Run.mk (l.map Event.op) r).allOps = l := by
  induction l with
  | nil => rfl
  | cons o l ih =>
    simp only [Run.allOps, List.map_cons, List.flatMap_cons, List.singleton_append] at ih ⊢
    rw [ih]

theorem TraceServer_ops (tracer : Tracer) (op : String) (next : Endpoint)
    (h : History) (ctx : Context) (request : Payload) :
    (TraceServer tracer op next h ctx request).toOutcome.ops =
      [(serverSpan tracer op h ctx).2, SpanKindRPCServer (serverSpan tracer op h ctx).1]
      ++ (serverCall tracer op next h ctx request).ops
      ++ (deferred (serverSpan tracer op h ctx).1
            (serverCall tracer op next h ctx request).result.err).1 := by
  have := allOps_map_op (deferred (serverSpan tracer op h ctx).1
            (serverCall tracer op next h ctx request).result.err).1 (Result.panic 0)
  simp only [Run.allOps] at this
  simp only [Run.toOutcome, Run.allOps, TraceServer_events, List.flatMap_append,
    List.flatMap_cons, List.flatMap_nil, this, List.cons_append, List.nil_append,
    List.append_nil, List.singleton_append, List.append_assoc]

theorem TraceClient_ops (tracer : Tracer) (op : String) (next : Endpoint)
    (h : History) (ctx : Context) (request : Payload) :
    (TraceClient tracer op next h ctx request).toOutcome.ops =
      [(clientSpan tracer op h ctx).2, SpanKindRPCClient (clientSpan tracer op h ctx).1]
      ++ (clientCall tracer op next h ctx request).ops
      ++ (deferred (clientSpan tracer op h ctx).1
            (clientCall tracer op next h ctx request).result.err).1 := by
  have := allOps_map_op (deferred (clientSpan tracer op h ctx).1
            (clientCall tracer op next h ctx request).result.err).1 (Result.panic 0)
  simp only [Run.allOps] at this
  simp only [Run.toOutcome, Run.allOps, TraceClient_events, List.flatMap_append,
    List.flatMap_cons, List.flatMap_nil, this, List.cons_append, List.nil_append,
    List.append_nil, List.singleton_append, List.append_assoc]

theorem mutates_of_subject_ne (t : Span) (o : SpanOp) (ho : o.subject ≠ t) :
    o.mutates t = false := by
  cases o <;> simp_all [SpanOp.mutates, SpanOp.subject]

theorem any_mutates_of_subject_ne (t : Span) (l : List SpanOp)
    (hl : ∀ o ∈ l, o.subject ≠ t) : l.any (SpanOp.mutates t) = false := by
  rw [List.any_eq_false]
  intro o ho
  rw [mutates_of_subject_ne t o (hl o ho)]
  simp

theorem count_finish_of_subject_ne (t : Span) (l : List SpanOp)
    (hl : ∀ o ∈ l, o.subject ≠ t) : l.count (SpanOp.Finish t) = 0 := by
  apply List.count_eq_zero_of_not_mem
  intro hmem
  exact hl _ hmem rfl

/-- A part of the list that holds no `Finish` of `t` can be dropped in front. -/
theorem changedAfterFinish_append_left (t : Span) (xs ys : List SpanOp)
    (hx : SpanOp.Finish t ∉ xs) :
    changedAfterFinish t (xs ++ ys) = changedAfterFinish t ys := by
  induction xs with
  | nil => rfl
  | cons o xs ih =>
    have ho : (o == SpanOp.Finish t) = false := by
      rw [beq_eq_false_iff_ne]
      intro hEq
      exact hx (hEq ▸ List.mem_cons_self _ _)
    have hx' : SpanOp.Finish t ∉ xs := fun hm => hx (List.mem_cons_of_mem _ hm)
    simp only [List.cons_append, changedAfterFinish, ho, Bool.false_and, Bool.false_or]
    exact ih hx'

theorem changedAfterFinish_of_subject_ne (t : Span) (l : List SpanOp)
    (hl : ∀ o ∈ l, o.subject ≠ t) : changedAfterFinish t l = false := by
  have := changedAfterFinish_append_left t l [] (fun hm => hl _ hm rfl)
  rw [List.append_nil] at this
  rw [this]
  rfl

/-- A part of the list that does not act on `t` can be dropped at the end. -/
theorem changedAfterFinish_append_right (t : Span) (xs ys : List SpanOp)
    (hy : ∀ o ∈ ys, o.subject ≠ t) :
    changedAfterFinish t (xs ++ ys) = changedAfterFinish t xs := by
  induction xs with
  | nil => exact changedAfterFinish_of_subject_ne t ys hy
  | cons o xs ih =>
    simp only [List.cons_append, changedAfterFinish, List.append_eq, List.any_append,
      any_mutates_of_subject_ne t ys hy, Bool.or_false, ih]

/-- Wrapping a well-behaved list of operations, none of which acts on `s`,
between operations on `s` that end with one `Finish` of `s` keeps the
lifecycle. -/
theorem lifecycle_wrap (s : Span) (a k : SpanOp) (inner closing : List SpanOp)
    (ha : a.subject = s) (haF : a.isFinish = false)
    (hk : k.subject = s) (hkF : k.isFinish = false)
    (hI : ∀ o ∈ inner, o.subject ≠ s) (hL : Lifecycle inner)
    (hCs : ∀ o ∈ closing, o.subject = s)
    (hCc : closing.count (SpanOp.Finish s) = 1)
    (hCu : changedAfterFinish s closing = false) :
    Lifecycle ([a, k] ++ inner ++ closing) := by
  have hAF : ∀ t, SpanOp.Finish t ∉ [a, k] := by
    intro t hm
    simp only [List.mem_cons, List.mem_singleton, List.not_mem_nil, or_false] at hm
    rcases hm with hm | hm
    · rw [← hm] at haF; exact absurd haF (by simp [SpanOp.isFinish])
    · rw [← hm] at hkF; exact absurd hkF (by simp [SpanOp.isFinish])
  intro t ht
  by_cases hts : t = s
  · subst hts
    constructor
    · rw [List.count_append, List.count_append, hCc,
        List.count_eq_zero_of_not_mem (hAF t), count_finish_of_subject_ne t inner hI]
    · rw [List.append_assoc, changedAfterFinish_append_left t _ _ (hAF t),
        changedAfterFinish_append_left t _ _ (fun hm => hI _ hm rfl)]
      exact hCu
  · have hA : ∀ o ∈ [a, k], o.subject ≠ t := by
      intro o ho
      simp only [List.mem_cons, List.mem_singleton, List.not_mem_nil, or_false] at ho
      rcases ho with ho | ho <;> subst ho
      · rw [ha]; exact fun e => hts e.symm
      · rw [hk]; exact fun e => hts e.symm
    have hD : ∀ o ∈ closing, o.subject ≠ t := by
      intro o ho
      rw [hCs o ho]
      exact fun e => hts e.symm
    have htI : t ∈ inner.map SpanOp.subject := by
      simp only [List.map_append, List.mem_append, List.mem_map] at ht ⊢
      rcases ht with (⟨o, ho, rfl⟩ | h2) | ⟨o, ho, rfl⟩
      · exact absurd rfl (hA o ho)
      · exact h2
      · exact absurd rfl (hD o ho)
    obtain ⟨hc, hu⟩ := hL t htI
    constructor
    · rw [List.count_append, List.count_append, count_finish_of_subject_ne t _ hA,
        count_finish_of_subject_ne t _ hD, hc]
    · rw [changedAfterFinish_append_right t _ _ hD,
        changedAfterFinish_append_left t _ _ (hAF t)]
      exact hu

theorem describable_err (r : Result) (hr : r.Describable) :
    ∀ e, r.err = some e → ∃ text, e.Error = ErrorCall.returns text := by
  intro e he
  cases r with
  | ret response err =>
    have : err = some e := he
    exact hr response e (by rw [this])
  | panic value => cases he

/-- After a describable result the deferred function raises no panic, and its
operations act on the span only, finish it once and change nothing after. -/
theorem deferred_after_describable (span : Span) (r : Result) (hr : r.Describable) :
    (deferred span r.err).2 = none
    ∧ (deferred span r.err).1.count (SpanOp.Finish span) = 1
    ∧ changedAfterFinish span (deferred span r.err).1 = false := by
  rcases deferred_describable span r.err (describable_err r hr) with h | ⟨text, h⟩ <;>
    rw [h] <;> simp [List.count_cons, changedAfterFinish, SpanOp.mutates]

/-! ## Stacks of client decorators over a fresh tracer -/

theorem mentioned_append (h l : History) : mentioned (h ++ l) = mentioned h ++ mentioned l := by
  simp only [mentioned, List.flatMap_append]

theorem stack_cons (tracer : Tracer) (l : Layer) (layers : List Layer) (base : Endpoint) :
    stack tracer (l :: layers) base = decorate tracer l (stack tracer layers base) := rfl

/-- Under a fresh tracer, a stack of client decorators over a quiet endpoint
with describable results acts only on spans that are new (not in the history,
not in the context), keeps the lifecycle, and has describable results. -/
theorem client_stack_fresh (tracer : Tracer) (hF : tracer.Fresh) (base : Endpoint)
    (hB : Quiet base)
    (hE : ∀ (h : History) (ctx : Context) (request : Payload),
      (base h ctx request).result.Describable)
    (layers : List Layer) (hC : ∀ l ∈ layers, l.isClient = true) :
    ∀ (h : History) (ctx : Context) (request : Payload),
      (∀ o ∈ (stack tracer layers base h ctx request).ops,
          o.subject ∉ mentioned h ∧ SpanFromContext ctx ≠ some o.subject)
      ∧ Lifecycle (stack tracer layers base h ctx request).ops
      ∧ (stack tracer layers base h ctx request).result.Describable := by
  induction layers with
  | nil =>
    intro h ctx request
    have hq : (stack tracer [] base h ctx request).ops = [] := hB h ctx request
    rw [hq]
    exact ⟨fun o ho => absurd ho (List.not_mem_nil o),
      fun s hs => absurd hs (List.not_mem_nil s), hE h ctx request⟩
  | cons l layers ih =>
    intro h ctx request
    have ih' := ih (fun l hl => hC l (List.mem_cons_of_mem _ hl))
    cases l with
    | server op =>
      have := hC (Layer.server op) (List.mem_cons_self _ _)
      simp [Layer.isClient] at this
    | client op =>
      rw [stack_cons]
      show (∀ o ∈ (TraceClient tracer op (stack tracer layers base) h ctx request).toOutcome.ops,
              o.subject ∉ mentioned h ∧ SpanFromContext ctx ≠ some o.subject)
          ∧ Lifecycle (TraceClient tracer op (stack tracer layers base) h ctx request).toOutcome.ops
          ∧ (TraceClient tracer op (stack tracer layers base) h ctx request).result.Describable
      rw [TraceClient_ops, TraceClient_result]
      have hsp := clientSpan_eq tracer op h ctx
      obtain ⟨hq1, hq2⟩ := hF h op (SpanFromContext ctx)
      have hs1 : (clientSpan tracer op h ctx).1 = tracer.StartSpan h op (SpanFromContext ctx) := by
        rw [hsp]
      have hs2 : (clientSpan tracer op h ctx).2 =
          SpanOp.StartSpan op (SpanFromContext ctx)
            (tracer.StartSpan h op (SpanFromContext ctx)) := by
        rw [hsp]
      obtain ⟨hIa, hIb, hIc⟩ := ih' (h ++ [(clientSpan tracer op h ctx).2,
          SpanKindRPCClient (clientSpan tracer op h ctx).1])
        (ContextWithSpan ctx (clientSpan tracer op h ctx).1) request
      have hInner : ∀ o ∈ (clientCall tracer op (stack tracer layers base) h ctx request).ops,
          o.subject ≠ (clientSpan tracer op h ctx).1 := by
        intro o ho hEq
        exact (hIa o ho).2 (by rw [hEq]; rfl)
      obtain ⟨hd1, hd2, hd3⟩ := deferred_after_describable (clientSpan tracer op h ctx).1
        (clientCall tracer op (stack tracer layers base) h ctx request).result hIc
      refine ⟨?_, ?_, ?_⟩
      · intro o ho
        simp only [List.mem_append] at ho
        rcases ho with (ho | ho) | ho
        · have hsub : o.subject = tracer.StartSpan h op (SpanFromContext ctx) := by
            simp only [List.mem_cons, List.mem_singleton, List.not_mem_nil, or_false] at ho
            rcases ho with ho | ho <;> subst ho
            · rw [hs2]; rfl
            · rw [← hs1]; rfl
          rw [hsub]
          exact ⟨hq1, hq2⟩
        · obtain ⟨hm, _⟩ := hIa o ho
          rw [mentioned_append, List.mem_append, not_or] at hm
          refine ⟨hm.1, ?_⟩
          intro hctx
          apply hm.2
          rw [hs2, hctx]
          simp [mentioned, SpanOp.spans]
        · rw [deferred_subject _ _ o ho, hs1]
          exact ⟨hq1, hq2⟩
      · exact lifecycle_wrap (clientSpan tracer op h ctx).1 _ _ _ _
          (by rw [hs2]; exact hs1.symm) (by rw [hs2]; rfl) rfl rfl hInner hIb
          (deferred_subject _ _) hd2 hd3
      · rw [hd1]
        exact hIc

theorem le_foldr_max (l : List Nat) : ∀ x ∈ l, x ≤ l.foldr max 0 := by
  induction l with
  | nil => intro x hx; exact absurd hx (List.not_mem_nil x)
  | cons a l ih =>
    intro x hx
    simp only [List.foldr_cons]
    rcases List.mem_cons.mp hx with rfl | hx
    · exact le_max_left _ _
    · exact le_trans (ih x hx) (le_max_right _ _)

theorem freshTracer_fresh : freshTracer.Fresh := by
  intro h name parent
  have key : ∀ x ∈ mentioned h ++ parent.toList, x ≠ freshTracer.StartSpan h name parent := by
    intro x hx hEq
    have hle : x ≤ (mentioned h ++ parent.toList).foldr max 0 := le_foldr_max _ x hx
    have hdef : (x : Nat) = 1 + (mentioned h ++ parent.toList).foldr max 0 := hEq
    generalize (mentioned h ++ parent.toList).foldr max 0 = m at hle hdef
    rw [hdef] at hle
    rw [Nat.add_comm] at hle
    exact Nat.not_succ_le_self m hle
  constructor
  · intro hm
    exact key _ (List.mem_append_left _ hm) rfl
  · intro hp
    cases parent with
    | none => cases hp
    | some p =>
      injection hp with hp
      exact key p (List.mem_append_right _ (by simp)) hp

/-! ## The claims -/

/-- C1 fails as stated: when `next` returns a non-nil error whose `Error()`
panics, the deferred function panics at `err.Error()`, and the decorated call
ends with that panic instead of returning the pair that `next` returned. -/
theorem pass_through_counterexample :
    ((serverCall freshTracer "Op" failingNilPointer [] [] 3).result =
        Result.ret 0 (some nilPointerError)
      ∧ (TraceServer freshTracer "Op" failingNilPointer [] [] 3).result = Result.panic 9)
    ∧ ((clientCall freshTracer "Op" failingNilPointer [] [] 3).result =
        Result.ret 0 (some nilPointerError)
      ∧ (TraceClient freshTracer "Op" failingNilPointer [] [] 3).result = Result.panic 9) := by
  decide

/-- C1 as amended (pass-through): each decorator invokes `next` exactly once,
with the request it was given; and when that invocation returns a response
with a nil error, or with a non-nil error whose `Error()` returns, the
decorated call returns exactly that response and that error, so it returns a
non-nil error exactly when `next` did. -/
theorem pass_through (tracer : Tracer) (op : String) (next : Endpoint)
    (h : History) (ctx : Context) (request : Payload) :
    ((TraceServer tracer op next h ctx request).calls =
        [(ContextWithSpan ctx (serverSpan tracer op h ctx).1, request,
          serverCall tracer op next h ctx request)]
      ∧ ∀ (response : Payload) (err : Option GoError),
          (serverCall tracer op next h ctx request).result = Result.ret response err →
          (∀ e, err = some e → ∃ text, e.Error = ErrorCall.returns text) →
          (TraceServer tracer op next h ctx request).result = Result.ret response err)
    ∧ ((TraceClient tracer op next h ctx request).calls =
        [(ContextWithSpan ctx (clientSpan tracer op h ctx).1, request,
          clientCall tracer op next h ctx request)]
      ∧ ∀ (response : Payload) (err : Option GoError),
          (clientCall tracer op next h ctx request).result = Result.ret response err →
          (∀ e, err = some e → ∃ text, e.Error = ErrorCall.returns text) →
          (TraceClient tracer op next h ctx request).result = Result.ret response err) := by
  refine ⟨⟨TraceServer_calls tracer op next h ctx request, ?_⟩,
    ⟨TraceClient_calls tracer op next h ctx request, ?_⟩⟩
  · intro response err hr hE
    rw [TraceServer_result, err_of_ret _ _ _ hr]
    rcases deferred_describable (serverSpan tracer op h ctx).1 err hE with hd | ⟨text, hd⟩ <;>
      rw [hd] <;> exact hr
  · intro response err hr hE
    rw [TraceClient_result, err_of_ret _ _ _ hr]
    rcases deferred_describable (clientSpan tracer op h ctx).1 err hE with hd | ⟨text, hd⟩ <;>
      rw [hd] <;> exact hr

/-- Witness of C1 as amended: a handler that succeeds under the server
decorator and fails with `boom` under the client decorator. -/
theorem pass_through_witness :
    (TraceServer freshTracer "Op"
        (byKind (Result.ret 3 none) (Result.ret 0 (some boom))) [] [] 3).result =
      Result.ret 3 none
    ∧ (TraceClient freshTracer "Op"
        (byKind (Result.ret 3 none) (Result.ret 0 (some boom))) [] [] 3).result =
      Result.ret 0 (some boom) :=
  ⟨(pass_through freshTracer "Op"
      (byKind (Result.ret 3 none) (Result.ret 0 (some boom))) [] [] 3).1.2 3 none
      (by decide) (fun _ he => nomatch he),
   (pass_through freshTracer "Op"
      (byKind (Result.ret 3 none) (Result.ret 0 (some boom))) [] [] 3).2.2 0 (some boom)
      (by decide) (fun _ he => ⟨"boom", by cases he; rfl⟩)⟩

/-- C2 fails as stated: when `next` returns a non-nil error whose `Error()`
panics, the deferred function stops at `err.Error()` and neither decorator
performs any `Finish`. -/
theorem finish_once_counterexample :
    ((serverCall freshTracer "Op" failingNilPointer [] [] 3).result =
        Result.ret 0 (some nilPointerError)
      ∧ (TraceServer freshTracer "Op" failingNilPointer [] [] 3).own.filter
          SpanOp.isFinish = [])
    ∧ ((clientCall freshTracer "Op" failingNilPointer [] [] 3).result =
        Result.ret 0 (some nilPointerError)
      ∧ (TraceClient freshTracer "Op" failingNilPointer [] [] 3).own.filter
          SpanOp.isFinish = []) := by
  decide

/-- C2 as amended (closure): when `next` returns a response with a nil error,
or with a non-nil error whose `Error()` returns, the only `Finish` each
decorator performs is one `Finish` on the span it created or reused, which is
the span of the context it gave to `next`. -/
theorem finish_once_on_return (tracer : Tracer) (op : String) (next : Endpoint)
    (h : History) (ctx : Context) (request : Payload) :
    (∀ (response : Payload) (err : Option GoError),
        (serverCall tracer op next h ctx request).result = Result.ret response err →
        (∀ e, err = some e → ∃ text, e.Error = ErrorCall.returns text) →
        (TraceServer tracer op next h ctx request).own.filter SpanOp.isFinish =
          [SpanOp.Finish (serverSpan tracer op h ctx).1]
        ∧ (TraceServer tracer op next h ctx request).calls.map
            (fun c => SpanFromContext c.1) = [some (serverSpan tracer op h ctx).1])
    ∧ (∀ (response : Payload) (err : Option GoError),
        (clientCall tracer op next h ctx request).result = Result.ret response err →
        (∀ e, err = some e → ∃ text, e.Error = ErrorCall.returns text) →
        (TraceClient tracer op next h ctx request).own.filter SpanOp.isFinish =
          [SpanOp.Finish (clientSpan tracer op h ctx).1]
        ∧ (TraceClient tracer op next h ctx request).calls.map
            (fun c => SpanFromContext c.1) = [some (clientSpan tracer op h ctx).1]) := by
  constructor
  · intro response err hr hE
    refine ⟨?_, by rw [TraceServer_calls]; rfl⟩
    rw [TraceServer_own, err_of_ret _ _ _ hr, List.filter_append]
    simp only [List.filter_cons, serverSpan_snd_isFinish]
    rcases deferred_describable (serverSpan tracer op h ctx).1 err hE with hd | ⟨text, hd⟩ <;>
      rw [hd] <;> rfl
  · intro response err hr hE
    refine ⟨?_, by rw [TraceClient_calls]; rfl⟩
    rw [TraceClient_own, err_of_ret _ _ _ hr, List.filter_append, clientSpan_snd]
    rcases deferred_describable (clientSpan tracer op h ctx).1 err hE with hd | ⟨text, hd⟩ <;>
      rw [hd] <;> rfl

/-- Witness of C2 as amended: a handler that succeeds under the server
decorator, which reuses span 5, and fails with `boom` under the client
decorator, which starts span 6. -/
theorem finish_once_on_return_witness :
    ((TraceServer freshTracer "Op" (byKind (Result.ret 3 none) (Result.ret 0 (some boom)))
          [] [CtxEntry.activeSpan 5] 3).own.filter SpanOp.isFinish = [SpanOp.Finish 5]
      ∧ (TraceServer freshTracer "Op" (byKind (Result.ret 3 none) (Result.ret 0 (some boom)))
          [] [CtxEntry.activeSpan 5] 3).calls.map (fun c => SpanFromContext c.1) = [some 5])
    ∧ ((TraceClient freshTracer "Op" (byKind (Result.ret 3 none) (Result.ret 0 (some boom)))
          [] [CtxEntry.activeSpan 5] 3).own.filter SpanOp.isFinish = [SpanOp.Finish 6]
      ∧ (TraceClient freshTracer "Op" (byKind (Result.ret 3 none) (Result.ret 0 (some boom)))
          [] [CtxEntry.activeSpan 5] 3).calls.map (fun c => SpanFromContext c.1) = [some 6]) :=
  ⟨(finish_once_on_return freshTracer "Op"
      (byKind (Result.ret 3 none) (Result.ret 0 (some boom))) [] [CtxEntry.activeSpan 5] 3).1
      3 none (by decide) (fun _ he => nomatch he),
   (finish_once_on_return freshTracer "Op"
      (byKind (Result.ret 3 none) (Result.ret 0 (some boom))) [] [CtxEntry.activeSpan 5] 3).2
      0 (some boom) (by decide) (fun _ he => ⟨"boom", by cases he; rfl⟩)⟩

/-- C3 fails as stated: when `next` returns a non-nil error whose `Error()`
panics, each decorator sets `error = true` on its span and then stops, so the
`message` tag is not set although the error is non-nil. -/
theorem error_tags_counterexample :
    ((serverCall freshTracer "Op" failingNilPointer [] [] 3).result =
        Result.ret 0 (some nilPointerError)
      ∧ (TraceServer freshTracer "Op" failingNilPointer [] [] 3).own.filter
          (fun o => o.isSetTag "error" || o.isSetTag "message") =
          [SpanOp.SetTag 1 "error" (TagValue.bool true)])
    ∧ ((clientCall freshTracer "Op" failingNilPointer [] [] 3).result =
        Result.ret 0 (some nilPointerError)
      ∧ (TraceClient freshTracer "Op" failingNilPointer [] [] 3).own.filter
          (fun o => o.isSetTag "error" || o.isSetTag "message") =
          [SpanOp.SetTag 1 "error" (TagValue.bool true)]) := by
  decide

/-- C3 as amended (error tagging): among the operations of each decorator, the
tags with key `error` or `message` are `error = true` followed by
`message = err.Error()`, both on its span, when `next` returned a non-nil error
`err` whose `Error()` returns; there is none when `next` returned a nil error,
and none when `next` panicked; and the tag `error = true` is set on its span
exactly when `next` returned a non-nil error. -/
theorem error_tags_iff_error (tracer : Tracer) (op : String) (next : Endpoint)
    (h : History) (ctx : Context) (request : Payload) :
    ((∀ (response : Payload) (e : GoError) (text : String),
        (serverCall tracer op next h ctx request).result = Result.ret response (some e) →
        e.Error = ErrorCall.returns text →
        (TraceServer tracer op next h ctx request).own.filter
            (fun o => o.isSetTag "error" || o.isSetTag "message") =
          [SpanOp.SetTag (serverSpan tracer op h ctx).1 "error" (TagValue.bool true),
           SpanOp.SetTag (serverSpan tracer op h ctx).1 "message" (TagValue.str text)])
      ∧ (∀ (response : Payload),
        (serverCall tracer op next h ctx request).result = Result.ret response none →
        (TraceServer tracer op next h ctx request).own.filter
            (fun o => o.isSetTag "error" || o.isSetTag "message") = [])
      ∧ (∀ (value : Nat),
        (serverCall tracer op next h ctx request).result = Result.panic value →
        (TraceServer tracer op next h ctx request).own.filter
            (fun o => o.isSetTag "error" || o.isSetTag "message") = [])
      ∧ (SpanOp.SetTag (serverSpan tracer op h ctx).1 "error" (TagValue.bool true) ∈
            (TraceServer tracer op next h ctx request).own ↔
          ∃ response e,
            (serverCall tracer op next h ctx request).result = Result.ret response (some e)))
    ∧ ((∀ (response : Payload) (e : GoError) (text : String),
        (clientCall tracer op next h ctx request).result = Result.ret response (some e) →
        e.Error = ErrorCall.returns text →
        (TraceClient tracer op next h ctx request).own.filter
            (fun o => o.isSetTag "error" || o.isSetTag "message") =
          [SpanOp.SetTag (clientSpan tracer op h ctx).1 "error" (TagValue.bool true),
           SpanOp.SetTag (clientSpan tracer op h ctx).1 "message" (TagValue.str text)])
      ∧ (∀ (response : Payload),
        (clientCall tracer op next h ctx request).result = Result.ret response none →
        (TraceClient tracer op next h ctx request).own.filter
            (fun o => o.isSetTag "error" || o.isSetTag "message") = [])
      ∧ (∀ (value : Nat),
        (clientCall tracer op next h ctx request).result = Result.panic value →
        (TraceClient tracer op next h ctx request).own.filter
            (fun o => o.isSetTag "error" || o.isSetTag "message") = [])
      ∧ (SpanOp.SetTag (clientSpan tracer op h ctx).1 "error" (TagValue.bool true) ∈
            (TraceClient tracer op next h ctx request).own ↔
          ∃ response e,
            (clientCall tracer op next h ctx request).result = Result.ret response (some e))) := by
  have hneS : SpanOp.SetTag (serverSpan tracer op h ctx).1 "error" (TagValue.bool true) ≠
      (serverSpan tracer op h ctx).2 := by
    intro hEq
    have := serverSpan_snd_isSetTag tracer op h ctx "error"
    rw [← hEq] at this
    simp [SpanOp.isSetTag] at this
  refine ⟨⟨?_, ?_, ?_, ?_⟩, ⟨?_, ?_, ?_, ?_⟩⟩
  · intro response e text hr he
    rw [TraceServer_own, err_of_ret _ _ _ hr, List.filter_append, deferred_returns _ e text he]
    simp only [List.filter_cons, serverSpan_snd_isSetTag]
    simp [SpanKindRPCServer, SpanOp.isSetTag]
  · intro response hr
    rw [TraceServer_own, err_of_ret _ _ _ hr, List.filter_append, deferred_nil]
    simp only [List.filter_cons, serverSpan_snd_isSetTag]
    simp [SpanKindRPCServer, SpanOp.isSetTag]
  · intro value hr
    rw [TraceServer_own, err_of_panic _ _ hr, List.filter_append, deferred_nil]
    simp only [List.filter_cons, serverSpan_snd_isSetTag]
    simp [SpanKindRPCServer, SpanOp.isSetTag]
  · rw [TraceServer_own]
    cases hr : (serverCall tracer op next h ctx request).result with
    | panic value =>
      simp [Result.err, deferred, SpanKindRPCServer, hneS]
    | ret response err =>
      cases err with
      | none => simp [Result.err, deferred, SpanKindRPCServer, hneS]
      | some e =>
        cases he : e.Error <;> simp [Result.err, deferred, he]
  · intro response e text hr he
    rw [TraceClient_own, err_of_ret _ _ _ hr, List.filter_append, deferred_returns _ e text he,
      clientSpan_snd]
    simp [SpanKindRPCClient, SpanOp.isSetTag]
  · intro response hr
    rw [TraceClient_own, err_of_ret _ _ _ hr, List.filter_append, deferred_nil, clientSpan_snd]
    simp [SpanKindRPCClient, SpanOp.isSetTag]
  · intro value hr
    rw [TraceClient_own, err_of_panic _ _ hr, List.filter_append, deferred_nil, clientSpan_snd]
    simp [SpanKindRPCClient, SpanOp.isSetTag]
  · rw [TraceClient_own, clientSpan_snd]
    cases hr : (clientCall tracer op next h ctx request).result with
    | panic value =>
      simp [Result.err, deferred, SpanKindRPCClient]
    | ret response err =>
      cases err with
      | none => simp [Result.err, deferred, SpanKindRPCClient]
      | some e =>
        cases he : e.Error <;> simp [Result.err, deferred, he]

/-- Witness of C3 as amended: a handler that succeeds under the server
decorator and fails with `boom` under the client decorator. -/
theorem error_tags_iff_error_witness :
    (TraceServer freshTracer "Op" (byKind (Result.ret 3 none) (Result.ret 0 (some boom)))
        [] [] 3).own.filter (fun o => o.isSetTag "error" || o.isSetTag "message") = []
    ∧ (TraceClient freshTracer "Op" (byKind (Result.ret 3 none) (Result.ret 0 (some boom)))
        [] [] 3).own.filter (fun o => o.isSetTag "error" || o.isSetTag "message") =
      [SpanOp.SetTag 1 "error" (TagValue.bool true),
       SpanOp.SetTag 1 "message" (TagValue.str "boom")] :=
  ⟨(error_tags_iff_error freshTracer "Op"
      (byKind (Result.ret 3 none) (Result.ret 0 (some boom))) [] [] 3).1.2.1 3 (by decide),
   (error_tags_iff_error freshTracer "Op"
      (byKind (Result.ret 3 none) (Result.ret 0 (some boom))) [] [] 3).2.1 0 boom "boom"
      (by decide) rfl⟩

/-- C4 (server reuse): when the context carries the span `S`, `TraceServer`
performs no `StartSpan`, its one renaming is `S.SetOperationName(op)`, and the
context it gives to `next` has `S` itself as current span. -/
theorem server_reuses_span (tracer : Tracer) (op : String) (next : Endpoint)
    (h : History) (ctx : Context) (request : Payload) (S : Span)
    (hS : SpanFromContext ctx = some S) :
    (TraceServer tracer op next h ctx request).own.filter SpanOp.isStartSpan = []
    ∧ (TraceServer tracer op next h ctx request).own.filter SpanOp.isSetOperationName =
        [SpanOp.SetOperationName S op]
    ∧ (TraceServer tracer op next h ctx request).calls.map (fun c => SpanFromContext c.1) =
        [some S] := by
  refine ⟨?_, ?_, ?_⟩
  · rw [TraceServer_own, List.filter_append, deferred_no_start,
      serverSpan_of_some tracer op h ctx S hS]
    rfl
  · rw [TraceServer_own, List.filter_append, deferred_no_rename,
      serverSpan_of_some tracer op h ctx S hS]
    rfl
  · rw [TraceServer_calls, serverSpan_of_some tracer op h ctx S hS]
    rfl

/-- Witness of C4: the context carries span 5. -/
theorem server_reuses_span_witness :
    SpanFromContext [CtxEntry.other 1 2, CtxEntry.activeSpan 5] = some 5
    ∧ (TraceServer freshTracer "Op" echo [] [CtxEntry.other 1 2, CtxEntry.activeSpan 5] 3).own.filter
        SpanOp.isStartSpan = []
    ∧ (TraceServer freshTracer "Op" echo [] [CtxEntry.other 1 2, CtxEntry.activeSpan 5] 3).own.filter
        SpanOp.isSetOperationName = [SpanOp.SetOperationName 5 "Op"]
    ∧ (TraceServer freshTracer "Op" echo [] [CtxEntry.other 1 2, CtxEntry.activeSpan 5] 3).calls.map
        (fun c => SpanFromContext c.1) = [some 5] :=
  ⟨rfl, server_reuses_span freshTracer "Op" echo [] [CtxEntry.other 1 2, CtxEntry.activeSpan 5] 3 5 rfl⟩

/-- C5 fails as stated: with a tracer that hands out one shared span (span 0)
and a context that carries that span as `P`, the span `Q` that `StartSpan`
returns is `P` itself, `next` gets `P` as current span, and the decorator
finishes `P`. -/
theorem client_child_counterexample :
    SpanFromContext [CtxEntry.activeSpan 0] = some 0
    ∧ (TraceClient noopTracer "Op" echo [] [CtxEntry.activeSpan 0] 3).own.filter
        SpanOp.isStartSpan = [SpanOp.StartSpan "Op" (some 0) 0]
    ∧ ¬ (clientSpan noopTracer "Op" [] [CtxEntry.activeSpan 0]).1 ≠ 0
    ∧ (TraceClient noopTracer "Op" echo [] [CtxEntry.activeSpan 0] 3).calls.map
        (fun c => SpanFromContext c.1) = [some 0]
    ∧ SpanOp.Finish 0 ∈ (TraceClient noopTracer "Op" echo [] [CtxEntry.activeSpan 0] 3).own := by
  decide

/-- C5 as amended: when the context carries the span `P`, `TraceClient` calls
`StartSpan` exactly once, with name `op` and a `ChildOf` reference to `P`;
`next` gets a context whose current span is the span `Q` that call returned;
the decorator renames no span; and when `Q` is distinct from `P`, the decorator
does not finish `P`. -/
theorem client_starts_child (tracer : Tracer) (op : String) (next : Endpoint)
    (h : History) (ctx : Context) (request : Payload) (P : Span)
    (hP : SpanFromContext ctx = some P) :
    (TraceClient tracer op next h ctx request).own.filter SpanOp.isStartSpan =
        [SpanOp.StartSpan op (some P) (tracer.StartSpan h op (some P))]
    ∧ (TraceClient tracer op next h ctx request).calls.map (fun c => SpanFromContext c.1) =
        [some (tracer.StartSpan h op (some P))]
    ∧ (TraceClient tracer op next h ctx request).own.filter SpanOp.isSetOperationName = []
    ∧ (tracer.StartSpan h op (some P) ≠ P →
        SpanOp.Finish P ∉ (TraceClient tracer op next h ctx request).own) := by
  refine ⟨?_, ?_, ?_, ?_⟩
  · rw [TraceClient_own, List.filter_append, deferred_no_start, clientSpan_eq, hP]
    rfl
  · rw [TraceClient_calls, clientSpan_eq, hP]
    rfl
  · rw [TraceClient_own, List.filter_append, deferred_no_rename, clientSpan_eq, hP]
    rfl
  · intro hne hmem
    rw [TraceClient_own, List.mem_append] at hmem
    rcases hmem with hmem | hmem
    · rw [clientSpan_snd] at hmem
      simp [SpanKindRPCClient] at hmem
    · have := deferred_subject _ _ _ hmem
      rw [clientSpan_eq, hP] at this
      exact hne this.symm

/-- Witness of C5 as amended: a fresh child 6 of span 5. -/
theorem client_starts_child_witness :
    SpanFromContext [CtxEntry.activeSpan 5] = some 5
    ∧ (TraceClient freshTracer "Op" failing [] [CtxEntry.activeSpan 5] 3).own.filter
        SpanOp.isStartSpan = [SpanOp.StartSpan "Op" (some 5) 6]
    ∧ (TraceClient freshTracer "Op" failing [] [CtxEntry.activeSpan 5] 3).calls.map
        (fun c => SpanFromContext c.1) = [some 6]
    ∧ (TraceClient freshTracer "Op" failing [] [CtxEntry.activeSpan 5] 3).own.filter
        SpanOp.isSetOperationName = []
    ∧ SpanOp.Finish 5 ∉ (TraceClient freshTracer "Op" failing [] [CtxEntry.activeSpan 5] 3).own :=
  have w := client_starts_child freshTracer "Op" failing [] [CtxEntry.activeSpan 5] 3 5 rfl
  ⟨rfl, w.1, w.2.1, w.2.2.1, w.2.2.2 (by decide)⟩

/-- C6 (root creation): when the context carries no span, each decorator calls
`StartSpan` exactly once, with name `op` and no parent reference, and `next`
gets a context whose current span is the span that call returned. -/
theorem root_span_created (tracer : Tracer) (op : String) (next : Endpoint)
    (h : History) (ctx : Context) (request : Payload)
    (hN : SpanFromContext ctx = none) :
    ((TraceServer tracer op next h ctx request).own.filter SpanOp.isStartSpan =
        [SpanOp.StartSpan op none (tracer.StartSpan h op none)]
      ∧ (TraceServer tracer op next h ctx request).calls.map (fun c => SpanFromContext c.1) =
        [some (tracer.StartSpan h op none)])
    ∧ ((TraceClient tracer op next h ctx request).own.filter SpanOp.isStartSpan =
        [SpanOp.StartSpan op none (tracer.StartSpan h op none)]
      ∧ (TraceClient tracer op next h ctx request).calls.map (fun c => SpanFromContext c.1) =
        [some (tracer.StartSpan h op none)]) := by
  refine ⟨⟨?_, ?_⟩, ⟨?_, ?_⟩⟩
  · rw [TraceServer_own, List.filter_append, deferred_no_start,
      serverSpan_of_none tracer op h ctx hN]
    rfl
  · rw [TraceServer_calls, serverSpan_of_none tracer op h ctx hN]
    rfl
  · rw [TraceClient_own, List.filter_append, deferred_no_start, clientSpan_eq, hN]
    rfl
  · rw [TraceClient_calls, clientSpan_eq, hN]
    rfl

/-- Witness of C6: a context without a span, after some history. -/
theorem root_span_created_witness :
    SpanFromContext [CtxEntry.other 1 2] = none
    ∧ (((TraceServer freshTracer "Op" echo [SpanOp.Finish 4] [CtxEntry.other 1 2] 3).own.filter
          SpanOp.isStartSpan =
          [SpanOp.StartSpan "Op" none (freshTracer.StartSpan [SpanOp.Finish 4] "Op" none)]
        ∧ (TraceServer freshTracer "Op" echo [SpanOp.Finish 4] [CtxEntry.other 1 2] 3).calls.map
            (fun c => SpanFromContext c.1) =
          [some (freshTracer.StartSpan [SpanOp.Finish 4] "Op" none)])
      ∧ ((TraceClient freshTracer "Op" echo [SpanOp.Finish 4] [CtxEntry.other 1 2] 3).own.filter
          SpanOp.isStartSpan =
          [SpanOp.StartSpan "Op" none (freshTracer.StartSpan [SpanOp.Finish 4] "Op" none)]
        ∧ (TraceClient freshTracer "Op" echo [SpanOp.Finish 4] [CtxEntry.other 1 2] 3).calls.map
            (fun c => SpanFromContext c.1) =
          [some (freshTracer.StartSpan [SpanOp.Finish 4] "Op" none)])) :=
  ⟨rfl, root_span_created freshTracer "Op" echo [SpanOp.Finish 4] [CtxEntry.other 1 2] 3 rfl⟩

/-- C7 fails as stated: when `next` returns a non-nil error whose `Error()`
panics, the events of each decorator end with `SetTag(error, true)`: no
`message` tag and no `Finish` follow, and the call ends with the panic. -/
theorem ordering_counterexample :
    ((TraceServer freshTracer "Op" failingNilPointer [] [] 3).events =
        [Event.op (SpanOp.StartSpan "Op" none 1),
         Event.op (SpanOp.SetTag 1 "span.kind" (TagValue.spanKind "server")),
         Event.call [CtxEntry.activeSpan 1] 3
           (Outcome.mk [] (Result.ret 0 (some nilPointerError))),
         Event.op (SpanOp.SetTag 1 "error" (TagValue.bool true))]
      ∧ (TraceServer freshTracer "Op" failingNilPointer [] [] 3).result = Result.panic 9)
    ∧ ((TraceClient freshTracer "Op" failingNilPointer [] [] 3).events =
        [Event.op (SpanOp.StartSpan "Op" none 1),
         Event.op (SpanOp.SetTag 1 "span.kind" (TagValue.spanKind "client")),
         Event.call [CtxEntry.activeSpan 1] 3
           (Outcome.mk [] (Result.ret 0 (some nilPointerError))),
         Event.op (SpanOp.SetTag 1 "error" (TagValue.bool true))]
      ∧ (TraceClient freshTracer "Op" failingNilPointer [] [] 3).result = Result.panic 9) := by
  decide

/-- C7 as amended (ordering): when `next` returns a non-nil error whose
`Error()` returns, the events of each decorator are, in this order: the start
of the span (for the server, the renaming of the reused span), the kind tag,
the invocation of `next`, `SetTag(error, true)`, `SetTag(message, err.Error())`,
`Finish`; so `Finish` is the last event and no tag follows it. -/
theorem ordering_on_error (tracer : Tracer) (op : String) (next : Endpoint)
    (h : History) (ctx : Context) (request : Payload) :
    (((serverSpan tracer op h ctx).2 = SpanOp.StartSpan op none (serverSpan tracer op h ctx).1
        ∨ (serverSpan tracer op h ctx).2 =
            SpanOp.SetOperationName (serverSpan tracer op h ctx).1 op)
      ∧ ∀ (response : Payload) (e : GoError) (text : String),
        (serverCall tracer op next h ctx request).result = Result.ret response (some e) →
        e.Error = ErrorCall.returns text →
        (TraceServer tracer op next h ctx request).events =
          [Event.op (serverSpan tracer op h ctx).2,
           Event.op (SpanKindRPCServer (serverSpan tracer op h ctx).1),
           Event.call (ContextWithSpan ctx (serverSpan tracer op h ctx).1) request
             (serverCall tracer op next h ctx request),
           Event.op (SpanOp.SetTag (serverSpan tracer op h ctx).1 "error" (TagValue.bool true)),
           Event.op (SpanOp.SetTag (serverSpan tracer op h ctx).1 "message"
             (TagValue.str text)),
           Event.op (SpanOp.Finish (serverSpan tracer op h ctx).1)]
        ∧ (TraceServer tracer op next h ctx request).events.getLast? =
            some (Event.op (SpanOp.Finish (serverSpan tracer op h ctx).1)))
    ∧ (∀ (response : Payload) (e : GoError) (text : String),
        (clientCall tracer op next h ctx request).result = Result.ret response (some e) →
        e.Error = ErrorCall.returns text →
        (TraceClient tracer op next h ctx request).events =
          [Event.op (SpanOp.StartSpan op (SpanFromContext ctx) (clientSpan tracer op h ctx).1),
           Event.op (SpanKindRPCClient (clientSpan tracer op h ctx).1),
           Event.call (ContextWithSpan ctx (clientSpan tracer op h ctx).1) request
             (clientCall tracer op next h ctx request),
           Event.op (SpanOp.SetTag (clientSpan tracer op h ctx).1 "error" (TagValue.bool true)),
           Event.op (SpanOp.SetTag (clientSpan tracer op h ctx).1 "message"
             (TagValue.str text)),
           Event.op (SpanOp.Finish (clientSpan tracer op h ctx).1)]
        ∧ (TraceClient tracer op next h ctx request).events.getLast? =
            some (Event.op (SpanOp.Finish (clientSpan tracer op h ctx).1))) := by
  refine ⟨⟨serverSpan_snd_cases tracer op h ctx, ?_⟩, ?_⟩
  · intro response e text hr he
    have ev : (TraceServer tracer op next h ctx request).events = _ :=
      TraceServer_events tracer op next h ctx request
    rw [err_of_ret _ _ _ hr, deferred_returns _ e text he] at ev
    exact ⟨ev, by rw [ev]; rfl⟩
  · intro response e text hr he
    have ev : (TraceClient tracer op next h ctx request).events = _ :=
      TraceClient_events tracer op next h ctx request
    rw [err_of_ret _ _ _ hr, deferred_returns _ e text he, clientSpan_snd] at ev
    exact ⟨ev, by rw [ev]; rfl⟩

/-- Witness of C7 as amended: under a context that carries span 5, a handler
that fails with `boom` under the server decorator and panics under the client
decorator, and one that does the reverse. -/
theorem ordering_on_error_witness :
    (TraceServer freshTracer "Op" (byKind (Result.ret 0 (some boom)) (Result.panic 7))
        [] [CtxEntry.activeSpan 5] 3).events =
      [Event.op (SpanOp.SetOperationName 5 "Op"),
       Event.op (SpanOp.SetTag 5 "span.kind" (TagValue.spanKind "server")),
       Event.call [CtxEntry.activeSpan 5, CtxEntry.activeSpan 5] 3
         (Outcome.mk [] (Result.ret 0 (some boom))),
       Event.op (SpanOp.SetTag 5 "error" (TagValue.bool true)),
       Event.op (SpanOp.SetTag 5 "message" (TagValue.str "boom")),
       Event.op (SpanOp.Finish 5)]
    ∧ (TraceClient freshTracer "Op" (byKind (Result.panic 7) (Result.ret 0 (some boom)))
        [] [CtxEntry.activeSpan 5] 3).events =
      [Event.op (SpanOp.StartSpan "Op" (some 5) 6),
       Event.op (SpanOp.SetTag 6 "span.kind" (TagValue.spanKind "client")),
       Event.call [CtxEntry.activeSpan 6, CtxEntry.activeSpan 5] 3
         (Outcome.mk [] (Result.ret 0 (some boom))),
       Event.op (SpanOp.SetTag 6 "error" (TagValue.bool true)),
       Event.op (SpanOp.SetTag 6 "message" (TagValue.str "boom")),
       Event.op (SpanOp.Finish 6)] :=
  ⟨((ordering_on_error freshTracer "Op" (byKind (Result.ret 0 (some boom)) (Result.panic 7))
      [] [CtxEntry.activeSpan 5] 3).1.2 0 boom "boom" (by decide) rfl).1,
   ((ordering_on_error freshTracer "Op" (byKind (Result.panic 7) (Result.ret 0 (some boom)))
      [] [CtxEntry.activeSpan 5] 3).2 0 boom "boom" (by decide) rfl).1⟩

/-- C8 (closure on panic): when `next` panics, each decorator still performs
`Finish` on its span, once, as its only operation after the invocation of
`next`, and the panic then reaches the caller. -/
theorem finish_once_on_panic (tracer : Tracer) (op : String) (next : Endpoint)
    (h : History) (ctx : Context) (request : Payload) :
    (∀ (value : Nat),
        (serverCall tracer op next h ctx request).result = Result.panic value →
        (TraceServer tracer op next h ctx request).events =
          [Event.op (serverSpan tracer op h ctx).2,
           Event.op (SpanKindRPCServer (serverSpan tracer op h ctx).1),
           Event.call (ContextWithSpan ctx (serverSpan tracer op h ctx).1) request
             (serverCall tracer op next h ctx request),
           Event.op (SpanOp.Finish (serverSpan tracer op h ctx).1)]
        ∧ (TraceServer tracer op next h ctx request).own.filter SpanOp.isFinish =
            [SpanOp.Finish (serverSpan tracer op h ctx).1]
        ∧ (TraceServer tracer op next h ctx request).result = Result.panic value)
    ∧ (∀ (value : Nat),
        (clientCall tracer op next h ctx request).result = Result.panic value →
        (TraceClient tracer op next h ctx request).events =
          [Event.op (clientSpan tracer op h ctx).2,
           Event.op (SpanKindRPCClient (clientSpan tracer op h ctx).1),
           Event.call (ContextWithSpan ctx (clientSpan tracer op h ctx).1) request
             (clientCall tracer op next h ctx request),
           Event.op (SpanOp.Finish (clientSpan tracer op h ctx).1)]
        ∧ (TraceClient tracer op next h ctx request).own.filter SpanOp.isFinish =
            [SpanOp.Finish (clientSpan tracer op h ctx).1]
        ∧ (TraceClient tracer op next h ctx request).result = Result.panic value) := by
  constructor
  · intro value hr
    have ev : (TraceServer tracer op next h ctx request).events = _ :=
      TraceServer_events tracer op next h ctx request
    rw [err_of_panic _ _ hr, deferred_nil] at ev
    refine ⟨ev, ?_, ?_⟩
    · rw [TraceServer_own, err_of_panic _ _ hr, deferred_nil, List.filter_append]
      simp only [List.filter_cons, serverSpan_snd_isFinish]
      rfl
    · rw [TraceServer_result, err_of_panic _ _ hr, deferred_nil]
      exact hr
  · intro value hr
    have ev : (TraceClient tracer op next h ctx request).events = _ :=
      TraceClient_events tracer op next h ctx request
    rw [err_of_panic _ _ hr, deferred_nil] at ev
    refine ⟨ev, ?_, ?_⟩
    · rw [TraceClient_own, err_of_panic _ _ hr, deferred_nil, List.filter_append,
        clientSpan_snd]
      rfl
    · rw [TraceClient_result, err_of_panic _ _ hr, deferred_nil]
      exact hr

/-- Witness of C8: a handler that panics with 7 under the server decorator
only, and one that panics with 7 under the client decorator only. -/
theorem finish_once_on_panic_witness :
    ((TraceServer freshTracer "Op" (byKind (Result.panic 7) (Result.ret 3 none)) [] [] 3).events =
        [Event.op (SpanOp.StartSpan "Op" none 1),
         Event.op (SpanOp.SetTag 1 "span.kind" (TagValue.spanKind "server")),
         Event.call [CtxEntry.activeSpan 1] 3 (Outcome.mk [] (Result.panic 7)),
         Event.op (SpanOp.Finish 1)]
      ∧ (TraceServer freshTracer "Op" (byKind (Result.panic 7) (Result.ret 3 none))
          [] [] 3).own.filter SpanOp.isFinish = [SpanOp.Finish 1]
      ∧ (TraceServer freshTracer "Op" (byKind (Result.panic 7) (Result.ret 3 none))
          [] [] 3).result = Result.panic 7)
    ∧ ((TraceClient freshTracer "Op" (byKind (Result.ret 3 none) (Result.panic 7)) [] [] 3).events =
        [Event.op (SpanOp.StartSpan "Op" none 1),
         Event.op (SpanOp.SetTag 1 "span.kind" (TagValue.spanKind "client")),
         Event.call [CtxEntry.activeSpan 1] 3 (Outcome.mk [] (Result.panic 7)),
         Event.op (SpanOp.Finish 1)]
      ∧ (TraceClient freshTracer "Op" (byKind (Result.ret 3 none) (Result.panic 7))
          [] [] 3).own.filter SpanOp.isFinish = [SpanOp.Finish 1]
      ∧ (TraceClient freshTracer "Op" (byKind (Result.ret 3 none) (Result.panic 7))
          [] [] 3).result = Result.panic 7) :=
  ⟨(finish_once_on_panic freshTracer "Op" (byKind (Result.panic 7) (Result.ret 3 none))
      [] [] 3).1 7 (by decide),
   (finish_once_on_panic freshTracer "Op" (byKind (Result.ret 3 none) (Result.panic 7))
      [] [] 3).2 7 (by decide)⟩

/-- C10 (kind marker): each decorator begins with the call that obtains its
span, then tags that span `span.kind = server` (`TraceServer`) or
`span.kind = client` (`TraceClient`), then invokes `next` with a context whose
current span is that same span. -/
theorem kind_marker_before_next (tracer : Tracer) (op : String) (next : Endpoint)
    (h : History) (ctx : Context) (request : Payload) :
    ((TraceServer tracer op next h ctx request).events.take 3 =
        [Event.op (serverSpan tracer op h ctx).2,
         Event.op (SpanOp.SetTag (serverSpan tracer op h ctx).1 "span.kind"
           (TagValue.spanKind "server")),
         Event.call (ContextWithSpan ctx (serverSpan tracer op h ctx).1) request
           (serverCall tracer op next h ctx request)]
      ∧ SpanFromContext (ContextWithSpan ctx (serverSpan tracer op h ctx).1) =
          some (serverSpan tracer op h ctx).1
      ∧ (serverSpan tracer op h ctx).2.subject = (serverSpan tracer op h ctx).1)
    ∧ ((TraceClient tracer op next h ctx request).events.take 3 =
        [Event.op (clientSpan tracer op h ctx).2,
         Event.op (SpanOp.SetTag (clientSpan tracer op h ctx).1 "span.kind"
           (TagValue.spanKind "client")),
         Event.call (ContextWithSpan ctx (clientSpan tracer op h ctx).1) request
           (clientCall tracer op next h ctx request)]
      ∧ SpanFromContext (ContextWithSpan ctx (clientSpan tracer op h ctx).1) =
          some (clientSpan tracer op h ctx).1
      ∧ (clientSpan tracer op h ctx).2.subject = (clientSpan tracer op h ctx).1) := by
  refine ⟨⟨?_, rfl, serverSpan_snd_subject tracer op h ctx⟩, ⟨?_, rfl, ?_⟩⟩
  · rw [TraceServer_events]; rfl
  · rw [TraceClient_events]; rfl
  · rw [clientSpan_eq]; rfl

/-- C9 fails as stated. A `TraceServer` beneath another decorator reuses the
span of the layer above and finishes it, and the layer above finishes it again:
the span gets two `Finish`. With a tracer that hands out one shared span, two
stacked `TraceClient` finish that span twice as well. And when the base
endpoint returns an error whose `Error()` panics, the innermost decorator tags
its span and never finishes it. In all cases the base endpoint performs no
span operation. -/
theorem lifecycle_counterexample :
    (stack freshTracer [Layer.server "a", Layer.server "b"] echo [] [] 3).ops =
      [SpanOp.StartSpan "a" none 1,
       SpanOp.SetTag 1 "span.kind" (TagValue.spanKind "server"),
       SpanOp.SetOperationName 1 "b",
       SpanOp.SetTag 1 "span.kind" (TagValue.spanKind "server"),
       SpanOp.Finish 1,
       SpanOp.Finish 1]
    ∧ ¬ Lifecycle (stack freshTracer [Layer.server "a", Layer.server "b"] echo [] [] 3).ops
    ∧ ¬ Lifecycle (stack freshTracer [Layer.client "a", Layer.server "b"] echo [] [] 3).ops
    ∧ ¬ Lifecycle (stack noopTracer [Layer.client "a", Layer.client "b"] echo [] [] 3).ops
    ∧ (stack freshTracer [Layer.client "a"] failingNilPointer [] [] 3).ops =
      [SpanOp.StartSpan "a" none 1,
       SpanOp.SetTag 1 "span.kind" (TagValue.spanKind "client"),
       SpanOp.SetTag 1 "error" (TagValue.bool true)]
    ∧ ¬ Lifecycle (stack freshTracer [Layer.client "a"] failingNilPointer [] [] 3).ops := by
  decide

/-- C9 as amended: for a stack of decorators in which no `TraceServer` lies
beneath another decorator (any number of `TraceClient`, with at most one
`TraceServer`, outermost), a tracer whose `StartSpan` always returns a new
span, and a base endpoint that performs no span operation and returns no error
whose `Error()` panics, every span that an operation of the call acts on gets
exactly one `Finish` and no `SetTag` or `SetOperationName` after it. -/
theorem lifecycle_of_stack (tracer : Tracer) (hF : tracer.Fresh) (base : Endpoint)
    (hB : Quiet base)
    (hE : ∀ (h : History) (ctx : Context) (request response : Payload) (e : GoError),
      (base h ctx request).result = Result.ret response (some e) →
      ∃ text, e.Error = ErrorCall.returns text)
    (layers : List Layer)
    (hC : ∀ l ∈ layers.tail, l.isClient = true)
    (h : History) (ctx : Context) (request : Payload) :
    Lifecycle (stack tracer layers base h ctx request).ops := by
  have hE' : ∀ (h : History) (ctx : Context) (request : Payload),
      (base h ctx request).result.Describable :=
    fun h ctx request response e hr => hE h ctx request response e hr
  cases layers with
  | nil => exact (client_stack_fresh tracer hF base hB hE' [] hC h ctx request).2.1
  | cons l layers =>
    cases l with
    | client op =>
      refine (client_stack_fresh tracer hF base hB hE' (Layer.client op :: layers) ?_
        h ctx request).2.1
      intro l hl
      rcases List.mem_cons.mp hl with rfl | hl
      · rfl
      · exact hC l hl
    | server op =>
      rw [stack_cons]
      show Lifecycle (TraceServer tracer op (stack tracer layers base) h ctx request).toOutcome.ops
      rw [TraceServer_ops]
      obtain ⟨hIa, hIb, hIc⟩ := client_stack_fresh tracer hF base hB hE' layers hC
        (h ++ [(serverSpan tracer op h ctx).2,
          SpanKindRPCServer (serverSpan tracer op h ctx).1])
        (ContextWithSpan ctx (serverSpan tracer op h ctx).1) request
      obtain ⟨_, hd2, hd3⟩ := deferred_after_describable (serverSpan tracer op h ctx).1
        (serverCall tracer op (stack tracer layers base) h ctx request).result hIc
      exact lifecycle_wrap (serverSpan tracer op h ctx).1 _ _ _ _
        (serverSpan_snd_subject tracer op h ctx) (serverSpan_snd_isFinish tracer op h ctx)
        rfl rfl (fun o ho hEq => (hIa o ho).2 (by rw [hEq]; rfl)) hIb
        (deferred_subject _ _) hd2 hd3

/-- Witness of C9 as amended: a server layer over two client layers, a failing
base endpoint and a context that carries span 5. -/
theorem lifecycle_of_stack_witness :
    Lifecycle (stack freshTracer [Layer.server "a", Layer.client "b", Layer.client "c"]
      failing [] [CtxEntry.activeSpan 5] 3).ops :=
  lifecycle_of_stack freshTracer freshTracer_fresh failing (fun _ _ _ => rfl)
    (fun _ _ _ _ e hr => ⟨"boom", by cases hr; rfl⟩)
    [Layer.server "a", Layer.client "b", Layer.client "c"] (by decide)
    [] [CtxEntry.activeSpan 5] 3

end Tracing
